import Mathlib

/-!
Verification of the price/identifier reconciliation and valuation subsystem
of a game-collection tracker, against its natural-language specification.

The Python source is shallowly embedded: SQLite tables become lists of
records, SQL queries become list transformations (joins as nested
`flatMap`/`filter`, `ROW_NUMBER ... ORDER BY retrieve_time DESC ... rn = 1`
as an arg-max over the partition, `ORDER BY` as a stable insertion sort,
`DISTINCT` as first-occurrence deduplication), decimal prices become `ℚ`,
SQL `NULL` becomes `Option`, and timestamps become `Nat` (ISO-8601 strings
compare lexicographically, hence chronologically, so an abstract numeric
time is faithful).  Network fetches and database faults are modelled by
explicit oracles (`Except` results / fault flags), mirroring the points at
which the Python code can receive `requests.RequestException` or
`sqlite3.Error`.
-/

namespace Collecting

/-! ### Python string primitives (for `lib/id_retrieval.py`)

Each helper models one Python `str` method, on `List Char`.
`pyLowerChar` models `str.lower` on the ASCII range (the only range the
catalog slugs exercise). -/

def pyLowerChar (c : Char) : Char :=
  if 65 ≤ c.toNat ∧ c.toNat ≤ 90 then Char.ofNat (c.toNat + 32) else c

def pyLower (l : List Char) : List Char := l.map pyLowerChar

def pyStrip (l : List Char) : List Char :=
  ((l.dropWhile Char.isWhitespace).reverse.dropWhile Char.isWhitespace).reverse

/-- Models Python `s.replace(a, '')` for a single character `a`. -/
def pyDelete (a : Char) (l : List Char) : List Char := l.filter (fun c => c ≠ a)

/-- Models Python `s.replace(a, b)` for single characters. -/
def pyReplaceChar (a b : Char) (l : List Char) : List Char :=
  l.map (fun c => if c = a then b else c)

/-- Models Python `s.replace(a, t)` where `a` is a single character and `t`
a replacement string. -/
def pyExpand (a : Char) (t : List Char) (l : List Char) : List Char :=
  l.flatMap (fun c => if c = a then t else [c])

/-- Models Python `s.replace('--', '-')`: one left-to-right,
non-overlapping pass replacing each hyphen pair by a single hyphen. -/
def collapseDH : List Char → List Char
  | [] => []
  | [c] => [c]
  | a :: b :: rest =>
    if a = '-' ∧ b = '-' then '-' :: collapseDH rest
    else a :: collapseDH (b :: rest)

/-- Character-list form of `clean_game_name` (src/lib/id_retrieval.py
line 37): lower, strip, drop colon and dot, percent-encode the
apostrophe, turn spaces into hyphens, two passes of pairwise hyphen
collapsing, drop parens/brackets/slash/hash, strip. The stages appear in
the source's method-chain order, innermost first. -/
def cleanChars (l : List Char) : List Char :=
  pyStrip (pyDelete '#' (pyDelete '/' (pyDelete ']' (pyDelete '['
    (pyDelete ')' (pyDelete '(' (collapseDH (collapseDH (pyReplaceChar ' ' '-'
    (pyExpand '\'' ['%', '2', '7'] (pyDelete '.' (pyDelete ':'
    (pyStrip (pyLower l))))))))))))))

/-- Embedding of `clean_game_name` (src/lib/id_retrieval.py line 37). -/
def clean_game_name (s : String) : String :=
  String.mk (cleanChars s.data)

theorem data_mk (l : List Char) : (String.mk l).data = l := rfl

theorem data_clean_game_name (s : String) :
    (clean_game_name s).data = cleanChars s.data := by
  unfold clean_game_name
  rw [data_mk]

/-- True when the character list contains two adjacent hyphens. -/
def hasDoubleHyphen : List Char → Bool
  | '-' :: '-' :: _ => true
  | _ :: rest => hasDoubleHyphen rest
  | [] => false

/-! Origin lemmas: each pipeline stage only keeps input characters or
introduces characters from a known set. -/

theorem mem_pyStrip {c : Char} {l : List Char} (h : c ∈ pyStrip l) : c ∈ l := by
  unfold pyStrip at h
  rw [List.mem_reverse] at h
  have h1 := (List.dropWhile_sublist (l := (l.dropWhile Char.isWhitespace).reverse)
    (p := Char.isWhitespace)).mem h
  rw [List.mem_reverse] at h1
  exact (List.dropWhile_sublist (l := l) (p := Char.isWhitespace)).mem h1

theorem mem_pyDelete {a c : Char} {l : List Char} (h : c ∈ pyDelete a l) :
    c ∈ l ∧ c ≠ a := by
  unfold pyDelete at h
  have := List.mem_filter.mp h
  exact ⟨this.1, by simpa using this.2⟩

theorem mem_pyReplaceChar {a b c : Char} {l : List Char}
    (h : c ∈ pyReplaceChar a b l) : c = b ∨ (c ∈ l ∧ c ≠ a) := by
  unfold pyReplaceChar at h
  obtain ⟨d, hd, hdc⟩ := List.mem_map.mp h
  by_cases hda : d = a
  · subst hda; simp at hdc; exact Or.inl hdc.symm
  · right
    simp only [if_neg hda] at hdc
    exact hdc ▸ ⟨hd, hda⟩

theorem mem_pyExpand {a c : Char} {t l : List Char}
    (h : c ∈ pyExpand a t l) : c ∈ t ∨ (c ∈ l ∧ c ≠ a) := by
  unfold pyExpand at h
  obtain ⟨d, hd, hdc⟩ := List.mem_flatMap.mp h
  by_cases hda : d = a
  · subst hda; simp only [if_pos rfl] at hdc; exact Or.inl hdc
  · simp only [if_neg hda] at hdc
    simp at hdc
    exact Or.inr (hdc ▸ ⟨hd, hda⟩)

theorem mem_collapseDH {c : Char} : ∀ l : List Char, c ∈ collapseDH l → c ∈ l
  | [], h => by simp [collapseDH] at h
  | [a], h => by simpa [collapseDH] using h
  | a :: b :: rest, h => by
    unfold collapseDH at h
    by_cases hab : a = '-' ∧ b = '-'
    · rw [if_pos hab] at h
      rcases List.mem_cons.mp h with h1 | h1
      · subst h1
        exact hab.1 ▸ List.mem_cons_self _ _
      · exact List.mem_cons_of_mem _ (List.mem_cons_of_mem _ (mem_collapseDH rest h1))
    · rw [if_neg hab] at h
      rcases List.mem_cons.mp h with h1 | h1
      · exact h1 ▸ List.mem_cons_self _ _
      · exact List.mem_cons_of_mem _ (mem_collapseDH (b :: rest) h1)

theorem toNat_ofNat_valid {n : Nat} (h : n.isValidChar) : (Char.ofNat n).toNat = n := by
  unfold Char.ofNat
  rw [dif_pos h]
  unfold Char.ofNatAux Char.toNat
  simp [UInt32.toNat, BitVec.toNat_ofNatLt]

theorem pyLowerChar_not_upper (d : Char) :
    ¬(65 ≤ (pyLowerChar d).toNat ∧ (pyLowerChar d).toNat ≤ 90) := by
  unfold pyLowerChar
  by_cases hd : 65 ≤ d.toNat ∧ d.toNat ≤ 90
  · rw [if_pos hd]
    have hval : (d.toNat + 32).isValidChar := by
      left
      omega
    rw [toNat_ofNat_valid hval]
    omega
  · rw [if_neg hd]; exact hd

theorem mem_pyLower {c : Char} {l : List Char} (h : c ∈ pyLower l) :
    ¬(65 ≤ c.toNat ∧ c.toNat ≤ 90) := by
  unfold pyLower at h
  obtain ⟨d, _, hdc⟩ := List.mem_map.mp h
  exact hdc ▸ pyLowerChar_not_upper d

/-- C9, counterexample: the claim asserts the output of `clean_game_name`
never contains a run of two or more consecutive hyphens, but the
punctuation characters are removed only after the two hyphen-collapsing
passes, so the input string composed of letter a, space, open paren, close
paren, space, letter b normalizes to a slug containing a double hyphen. -/
theorem clean_game_name_double_hyphen_cex :
    clean_game_name (String.mk ['a', ' ', '(', ')', ' ', 'b'])
        = String.mk ['a', '-', '-', 'b'] ∧
    hasDoubleHyphen (clean_game_name (String.mk ['a', ' ', '(', ')', ' ', 'b'])).data
        = true := by
  constructor
  · decide
  · decide

/-- C9, amended: every character of the `clean_game_name` output is
non-uppercase (ASCII range), and none of the removed punctuation
characters (colon, dot, parens, brackets, slash, hash) nor the apostrophe
survives; spaces are turned into hyphens and hyphen pairs are collapsed by
two pairwise passes, which can still leave adjacent hyphens when
punctuation removal joins hyphens or when five or more spaces were
adjacent. This theorem states the character-set part. -/
theorem clean_game_name_charset (s : String) (c : Char)
    (hc : c ∈ (clean_game_name s).data) :
    ¬(65 ≤ c.toNat ∧ c.toNat ≤ 90) ∧
    c ≠ ':' ∧ c ≠ '.' ∧ c ≠ '(' ∧ c ≠ ')' ∧ c ≠ '[' ∧ c ≠ ']' ∧
    c ≠ '/' ∧ c ≠ '#' ∧ c ≠ '\'' := by
  rw [data_clean_game_name] at hc
  have h0 := hc
  unfold cleanChars at h0
  have h1 := mem_pyDelete (mem_pyStrip h0)
  have h2 := mem_pyDelete h1.1
  have h3 := mem_pyDelete h2.1
  have h4 := mem_pyDelete h3.1
  have h5 := mem_pyDelete h4.1
  have h6 := mem_pyDelete h5.1
  have h7 := mem_collapseDH _ (mem_collapseDH _ h6.1)
  refine ⟨?_, ?_, ?_, h6.2, h5.2, h4.2, h3.2, h2.2, h1.2, ?_⟩ <;>
    rcases mem_pyReplaceChar h7 with hdash | ⟨h8, hsp⟩ <;>
    try (subst hdash; decide)
  · rcases mem_pyExpand h8 with hnew | ⟨h9, _⟩
    · simp only [List.mem_cons, List.not_mem_nil, or_false] at hnew
      rcases hnew with h | h | h <;> (subst h; decide)
    · exact mem_pyLower (mem_pyStrip (mem_pyDelete (mem_pyDelete h9).1).1)
  · rcases mem_pyExpand h8 with hnew | ⟨h9, _⟩
    · simp only [List.mem_cons, List.not_mem_nil, or_false] at hnew
      rcases hnew with h | h | h <;> (subst h; decide)
    · exact (mem_pyDelete (mem_pyDelete h9).1).2
  · rcases mem_pyExpand h8 with hnew | ⟨h9, _⟩
    · simp only [List.mem_cons, List.not_mem_nil, or_false] at hnew
      rcases hnew with h | h | h <;> (subst h; decide)
    · exact (mem_pyDelete h9).2
  · rcases mem_pyExpand h8 with hnew | ⟨_, hap⟩
    · simp only [List.mem_cons, List.not_mem_nil, or_false] at hnew
      rcases hnew with h | h | h <;> (subst h; decide)
    · exact hap

/-- Witness for `clean_game_name_charset` at a concrete input. -/
theorem clean_game_name_charset_witness :
    (('a' : Char) ∈ (clean_game_name (String.mk ['A', '.', 'B'])).data) ∧
    (¬(65 ≤ ('a' : Char).toNat ∧ ('a' : Char).toNat ≤ 90) ∧
     ('a' : Char) ≠ ':' ∧ ('a' : Char) ≠ '.' ∧ ('a' : Char) ≠ '(' ∧
     ('a' : Char) ≠ ')' ∧ ('a' : Char) ≠ '[' ∧ ('a' : Char) ≠ ']' ∧
     ('a' : Char) ≠ '/' ∧ ('a' : Char) ≠ '#' ∧ ('a' : Char) ≠ '\'') :=
  ⟨by decide, clean_game_name_charset (String.mk ['A', '.', 'B']) 'a' (by decide)⟩

/-! ### Relational data model

One structure per table of the schema used by the source and its tests
(src/tests/test_price_retrieval.py lines 17-63). Row ids model the
AUTOINCREMENT primary keys; prices are `ℚ` (SQL DECIMAL); timestamps are
`Nat` (ISO-8601 strings compare lexicographically, hence like numbers). -/

structure PhysRow where
  id : Nat
  name : String
  console : String
deriving DecidableEq

structure PurchaseRow where
  id : Nat
  physical : Nat
  acquisition_date : String
  source : String
  price : Option ℚ
  condition : String
deriving DecidableEq

structure WantRow where
  id : Nat
  physical : Nat
deriving DecidableEq

structure PCRow where
  id : Nat
  pricecharting_id : Option String
  name : String
  console : String
deriving DecidableEq

structure LinkRow where
  id : Nat
  physical : Nat
  pcgame : Nat
deriving DecidableEq

structure PriceRow where
  pricecharting_id : String
  retrieve_time : Nat
  price : Option ℚ
  condition : String
deriving DecidableEq

structure DB where
  physical_games : List PhysRow
  purchased_games : List PurchaseRow
  wanted_games : List WantRow
  pricecharting_games : List PCRow
  links : List LinkRow
  prices : List PriceRow
deriving DecidableEq

def dbEmpty : DB := ⟨[], [], [], [], [], []⟩

/-! ### SQL building blocks -/

/-- Insert for the stable embedding of SQL ORDER BY (ties resolved
deterministically; SQL leaves tie order unspecified). -/
def insertLe {α : Type} (le : α → α → Bool) (a : α) : List α → List α
  | [] => [a]
  | b :: l => if le a b then a :: b :: l else b :: insertLe le a l

/-- Insertion sort by a Bool comparison: the embedding of SQL ORDER BY. -/
def sqlOrderBy {α : Type} (le : α → α → Bool) : List α → List α
  | [] => []
  | a :: l => insertLe le a (sqlOrderBy le l)

def dedupFirstAux {α : Type} [DecidableEq α] (seen : List α) : List α → List α
  | [] => []
  | a :: rest =>
    if a ∈ seen then dedupFirstAux seen rest
    else a :: dedupFirstAux (a :: seen) rest

/-- First-occurrence deduplication: the embedding of SQL DISTINCT. -/
def dedupFirst {α : Type} [DecidableEq α] (l : List α) : List α := dedupFirstAux [] l

/-- Embedding of a SQL LEFT JOIN partner list: the matching rows, or a
single NULL row when nothing matches. -/
def leftJoin {β : Type} (pred : β → Bool) (l : List β) : List (Option β) :=
  match l.filter pred with
  | [] => [none]
  | ms => ms.map some

/-- Embedding of SQL LIMIT n (a negative n means no limit in SQLite). -/
def sqlLimit {α : Type} (l : List α) (n : Int) : List α :=
  if n < 0 then l else l.take n.toNat

/-! ### Price snapshots and `insert_price_records`
(src/lib/price_retrieval.py) -/

structure Prices3 where
  complete : Option ℚ
  new : Option ℚ
  loose : Option ℚ
deriving DecidableEq

structure Snapshot where
  game : String
  time : Nat
  prices : Prices3
deriving DecidableEq

/-- Rows built by one iteration of the `insert_price_records` loop
(src/lib/price_retrieval.py lines 59-71): one row per condition in the
dict order of `get_game_prices` (complete, new, loose), plus one extra
null-price row with condition new when no condition had a price. -/
def snapshotRecords (s : Snapshot) : List PriceRow :=
  let base : List PriceRow :=
    [⟨s.game, s.time, s.prices.complete, "complete"⟩,
     ⟨s.game, s.time, s.prices.new, "new"⟩,
     ⟨s.game, s.time, s.prices.loose, "loose"⟩]
  let hasPrices := s.prices.complete.isSome || s.prices.new.isSome || s.prices.loose.isSome
  if hasPrices then base else base ++ [⟨s.game, s.time, none, "new"⟩]

/-- Embedding of `insert_price_records` (src/lib/price_retrieval.py lines
57-79): the rows appended to pricecharting_prices; a `none` entry models
the `record is None` skip for a failed fetch. -/
def insert_price_records (games : List (Option Snapshot)) : List PriceRow :=
  games.flatMap (fun g =>
    match g with
    | none => []
    | some s => snapshotRecords s)

/-! ### Staleness policy and batch selector
(view from src/tests/test_price_retrieval.py lines 92-116, queried by
src/lib/price_retrieval.py `retrieve_games`) -/

structure EligibleRow where
  name : String
  console : String
  pricecharting_id : Option String
deriving DecidableEq

/-- The latest_updates CTE: MAX(retrieve_time) per catalog id. -/
def lastUpdate (prices : List PriceRow) (c : String) : Option Nat :=
  ((prices.filter (fun r => r.pricecharting_id = c)).map
    (fun r => r.retrieve_time)).max?

/-- The WHERE clause of the eligible_price_updates view: last_update IS
NULL (never attempted, including a NULL catalog id whose left join finds
no row) or older than the cutoff (`cutoff` models
datetime('now', '-7 days')). -/
def staleOk (prices : List PriceRow) (cutoff : Nat) : Option String → Bool
  | none => true
  | some c =>
    match lastUpdate prices c with
    | none => true
    | some t => decide (t < cutoff)

/-- Join rows of the eligible_price_updates view before DISTINCT and
ORDER BY: physical_games, LEFT JOIN purchased_games (which filters
nothing), JOIN the link table, JOIN pricecharting_games, LEFT JOIN
latest_updates folded into `staleOk`. -/
def eligibleJoinRows (db : DB) (cutoff : Nat) : List EligibleRow :=
  db.physical_games.flatMap (fun g =>
    (leftJoin (fun pg => pg.physical = g.id) db.purchased_games).flatMap (fun _pg =>
      (db.links.filter (fun j => j.physical = g.id)).flatMap (fun j =>
        (db.pricecharting_games.filter (fun z => z.id = j.pcgame)).filterMap (fun z =>
          if staleOk db.prices cutoff z.pricecharting_id then
            some ⟨g.name, g.console, z.pricecharting_id⟩
          else none))))

/-- Lexicographic comparison of character lists by codepoint: SQLite's
BINARY collation on (ASCII) text. -/
def charListLe : List Char → List Char → Bool
  | [], _ => true
  | _ :: _, [] => false
  | a :: as, b :: bs =>
    if a.toNat < b.toNat then true
    else if b.toNat < a.toNat then false
    else charListLe as bs

def nameLe (x y : EligibleRow) : Bool := charListLe x.name.data y.name.data

/-- The eligible_price_updates view: SELECT DISTINCT name, console,
pricecharting_id ... ORDER BY name ASC. -/
def eligible_price_updates (db : DB) (cutoff : Nat) : List EligibleRow :=
  sqlOrderBy nameLe (dedupFirst (eligibleJoinRows db cutoff))

/-- Embedding of `retrieve_games` (src/lib/price_retrieval.py lines
39-55): SELECT DISTINCT pricecharting_id FROM eligible_price_updates
ORDER BY name ASC, with LIMIT applied only when `max_prices` is truthy
(`if max_prices:` in Python is false for both None and 0); a database
error is caught and yields the empty list. -/
def retrieve_games (dbr : Except String DB) (cutoff : Nat) (max_prices : Option Int) :
    List (Option String) :=
  match dbr with
  | .error _ => []
  | .ok db =>
    let ids := dedupFirst ((eligible_price_updates db cutoff).map
      (fun r => r.pricecharting_id))
    match max_prices with
    | some n => if n ≠ 0 then sqlLimit ids n else ids
    | none => ids

/-- Store with three linked catalog entries, none with any price
observation, mirroring test_retrieve_games_with_numeric_max_prices
(src/tests/test_price_retrieval.py). -/
def db3 : DB :=
  { physical_games := [⟨1, "Game A", "Switch"⟩, ⟨2, "Game B", "PS5"⟩, ⟨3, "Game C", "Xbox"⟩]
    purchased_games := []
    wanted_games := []
    pricecharting_games := [⟨1, some "1001", "Game A", "Switch"⟩,
                            ⟨2, some "1002", "Game B", "PS5"⟩,
                            ⟨3, some "1003", "Game C", "Xbox"⟩]
    links := [⟨1, 1, 1⟩, ⟨2, 2, 2⟩, ⟨3, 3, 3⟩]
    prices := [] }

/-- C1: `max_prices = 0` is falsy in Python (`if max_prices:`), so
`retrieve_games` applies no LIMIT and returns the full eligible set,
exactly as for an absent bound — not the empty list the claim (and
test_retrieve_games_with_numeric_max_prices) expects. A positive bound
does truncate to the first elements. -/
theorem retrieve_games_max0_returns_all :
    retrieve_games (.ok db3) 100 (some 0) = [some "1001", some "1002", some "1003"] ∧
    retrieve_games (.ok db3) 100 (some 0) = retrieve_games (.ok db3) 100 none ∧
    retrieve_games (.ok db3) 100 (some 0) ≠ [] ∧
    retrieve_games (.ok db3) 100 (some 2) = [some "1001", some "1002"] := by
  refine ⟨by decide, by decide, by decide, by decide⟩

/-- C2, counterexample: for a snapshot whose three prices are all null,
`insert_price_records` appends four rows (the loop appends one row per
condition whether or not its price is null, and then one extra sentinel
row with condition new), not the single row the claim states. This
matches test_insert_price_records, which asserts 4 rows. -/
theorem insert_price_records_all_null_cex :
    insert_price_records [some ⟨"1001", 5, ⟨none, none, none⟩⟩] =
      [⟨"1001", 5, none, "complete"⟩, ⟨"1001", 5, none, "new"⟩,
       ⟨"1001", 5, none, "loose"⟩, ⟨"1001", 5, none, "new"⟩] ∧
    (insert_price_records [some ⟨"1001", 5, ⟨none, none, none⟩⟩]).length ≠ 1 := by
  refine ⟨by decide, by decide⟩

/-- C2, amended: a snapshot whose three prices are all null contributes
exactly four rows at its catalog id and retrieve time, all with null
price: one per condition in dict order (complete, new, loose) plus the
extra sentinel with condition new. -/
theorem insert_price_records_all_null (s : Snapshot)
    (hc : s.prices.complete = none) (hn : s.prices.new = none)
    (hl : s.prices.loose = none) :
    snapshotRecords s =
      [⟨s.game, s.time, none, "complete"⟩, ⟨s.game, s.time, none, "new"⟩,
       ⟨s.game, s.time, none, "loose"⟩, ⟨s.game, s.time, none, "new"⟩] ∧
    insert_price_records [some s] = snapshotRecords s := by
  constructor
  · unfold snapshotRecords
    rw [hc, hn, hl]
    simp
  · unfold insert_price_records
    simp

/-- Witness for `insert_price_records_all_null` at a concrete snapshot. -/
theorem insert_price_records_all_null_witness :
    ((⟨"77", 3, ⟨none, none, none⟩⟩ : Snapshot).prices.complete = none ∧
     (⟨"77", 3, ⟨none, none, none⟩⟩ : Snapshot).prices.new = none ∧
     (⟨"77", 3, ⟨none, none, none⟩⟩ : Snapshot).prices.loose = none) ∧
    (snapshotRecords ⟨"77", 3, ⟨none, none, none⟩⟩ =
      [⟨"77", 3, none, "complete"⟩, ⟨"77", 3, none, "new"⟩,
       ⟨"77", 3, none, "loose"⟩, ⟨"77", 3, none, "new"⟩] ∧
     insert_price_records [some ⟨"77", 3, ⟨none, none, none⟩⟩] =
       snapshotRecords ⟨"77", 3, ⟨none, none, none⟩⟩) :=
  ⟨⟨rfl, rfl, rfl⟩,
   insert_price_records_all_null ⟨"77", 3, ⟨none, none, none⟩⟩ rfl rfl rfl⟩

/-- C10: when the underlying query fails (`sqlite3.Error` caught),
`retrieve_games` returns the empty list instead of raising, which is also
exactly its output on a store with no eligible rows — the caller cannot
tell the two apart. -/
theorem retrieve_games_error_empty (e : String) (cutoff : Nat) (mp : Option Int) :
    retrieve_games (.error e) cutoff mp = [] ∧
    retrieve_games (.error e) cutoff mp = retrieve_games (.ok dbEmpty) cutoff mp := by
  constructor
  · rfl
  · cases mp with
    | none => rfl
    | some n =>
      by_cases h : n = 0
      · subst h; rfl
      · have hr : retrieve_games (.ok dbEmpty) cutoff (some n) = [] := by
          simp only [retrieve_games, eligible_price_updates, eligibleJoinRows, dbEmpty,
            List.flatMap_nil, dedupFirst, dedupFirstAux, sqlOrderBy, List.map_nil]
          rw [if_pos h]
          unfold sqlLimit
          split
          · rfl
          · simp
        rw [hr]
        rfl

/-! ### List-level lemmas about the SQL building blocks -/

theorem natMax?_some {l : List Nat} {t : Nat} (h : l.max? = some t) :
    t ∈ l ∧ ∀ x ∈ l, x ≤ t := by
  rw [List.max?_eq_some_iff] at h
  · exact ⟨h.1, h.2⟩
  all_goals intros; simp [max_def]; try omega
  all_goals split <;> omega

theorem mem_dedupFirstAux {α : Type} [DecidableEq α] (a : α) :
    ∀ (l seen : List α), a ∈ dedupFirstAux seen l ↔ (a ∈ l ∧ a ∉ seen)
  | [], seen => by simp [dedupFirstAux]
  | b :: rest, seen => by
    unfold dedupFirstAux
    by_cases hb : b ∈ seen
    · rw [if_pos hb, mem_dedupFirstAux a rest seen]
      constructor
      · exact fun h => ⟨List.mem_cons_of_mem _ h.1, h.2⟩
      · rintro ⟨h1, h2⟩
        rcases List.mem_cons.mp h1 with h | h
        · exact absurd (h ▸ hb) h2
        · exact ⟨h, h2⟩
    · rw [if_neg hb]
      constructor
      · intro h
        rcases List.mem_cons.mp h with h | h
        · exact ⟨h ▸ List.mem_cons_self _ _, h ▸ hb⟩
        · have h' := (mem_dedupFirstAux a rest (b :: seen)).mp h
          exact ⟨List.mem_cons_of_mem _ h'.1,
            fun hs => h'.2 (List.mem_cons_of_mem _ hs)⟩
      · rintro ⟨h1, h2⟩
        by_cases hab : a = b
        · exact hab ▸ List.mem_cons_self _ _
        · rcases List.mem_cons.mp h1 with h | h
          · exact absurd h hab
          · exact List.mem_cons_of_mem _ ((mem_dedupFirstAux a rest (b :: seen)).mpr
              ⟨h, fun hs => (List.mem_cons.mp hs).elim hab h2⟩)

theorem mem_dedupFirst {α : Type} [DecidableEq α] {a : α} {l : List α} :
    a ∈ dedupFirst l ↔ a ∈ l := by
  unfold dedupFirst
  rw [mem_dedupFirstAux]
  simp

theorem nodup_dedupFirstAux {α : Type} [DecidableEq α] :
    ∀ (l seen : List α),
      (dedupFirstAux seen l).Nodup ∧ ∀ a ∈ dedupFirstAux seen l, a ∉ seen
  | [], seen => by simp [dedupFirstAux]
  | b :: rest, seen => by
    unfold dedupFirstAux
    by_cases hb : b ∈ seen
    · rw [if_pos hb]
      exact nodup_dedupFirstAux rest seen
    · rw [if_neg hb]
      obtain ⟨hn, hs⟩ := nodup_dedupFirstAux rest (b :: seen)
      refine ⟨List.nodup_cons.mpr ⟨fun hmem => ?_, hn⟩, ?_⟩
      · exact hs b hmem (List.mem_cons_self _ _)
      · intro a ha
        rcases List.mem_cons.mp ha with h | h
        · exact h ▸ hb
        · exact fun hseen => hs a h (List.mem_cons_of_mem _ hseen)

theorem nodup_dedupFirst {α : Type} [DecidableEq α] (l : List α) :
    (dedupFirst l).Nodup :=
  (nodup_dedupFirstAux l []).1

theorem mem_insertLe {α : Type} {le : α → α → Bool} {a c : α} :
    ∀ l : List α, c ∈ insertLe le a l ↔ c = a ∨ c ∈ l
  | [] => by simp [insertLe]
  | b :: l => by
    unfold insertLe
    split
    · simp
    · rw [List.mem_cons, mem_insertLe l, List.mem_cons]
      tauto

theorem mem_sqlOrderBy {α : Type} {le : α → α → Bool} {c : α} :
    ∀ l : List α, c ∈ sqlOrderBy le l ↔ c ∈ l
  | [] => Iff.rfl
  | a :: l => by
    unfold sqlOrderBy
    rw [mem_insertLe, mem_sqlOrderBy l, List.mem_cons]

theorem pairwise_insertLe {α : Type} {le : α → α → Bool}
    (tot : ∀ a b, le a b = true ∨ le b a = true)
    (tr : ∀ a b c, le a b = true → le b c = true → le a c = true) (a : α) :
    ∀ l : List α, List.Pairwise (fun x y => le x y = true) l →
      List.Pairwise (fun x y => le x y = true) (insertLe le a l)
  | [], _ => List.pairwise_singleton _ _
  | b :: l, h => by
    unfold insertLe
    obtain ⟨hb, hl⟩ := List.pairwise_cons.mp h
    split
    · rename_i hab
      refine List.pairwise_cons.mpr ⟨?_, h⟩
      intro x hx
      rcases List.mem_cons.mp hx with hxb | hxl
      · exact hxb ▸ hab
      · exact tr a b x hab (hb x hxl)
    · rename_i hab
      have hba : le b a = true := (tot a b).resolve_left hab
      refine List.pairwise_cons.mpr ⟨?_, pairwise_insertLe tot tr a l hl⟩
      intro x hx
      rcases (mem_insertLe l).mp hx with hxa | hxl
      · exact hxa ▸ hba
      · exact hb x hxl

theorem pairwise_sqlOrderBy {α : Type} {le : α → α → Bool}
    (tot : ∀ a b, le a b = true ∨ le b a = true)
    (tr : ∀ a b c, le a b = true → le b c = true → le a c = true) :
    ∀ l : List α, List.Pairwise (fun x y => le x y = true) (sqlOrderBy le l)
  | [] => List.Pairwise.nil
  | a :: l => pairwise_insertLe tot tr a _ (pairwise_sqlOrderBy tot tr l)

theorem charListLe_total : ∀ xs ys, charListLe xs ys = true ∨ charListLe ys xs = true
  | [], _ => Or.inl rfl
  | _ :: _, [] => Or.inr rfl
  | x :: xs, y :: ys => by
    unfold charListLe
    by_cases h1 : x.toNat < y.toNat
    · left; rw [if_pos h1]
    · by_cases h2 : y.toNat < x.toNat
      · right; rw [if_pos h2]
      · rw [if_neg h1, if_neg h2, if_neg h2, if_neg h1]
        exact charListLe_total xs ys

theorem charListLe_trans :
    ∀ xs ys zs, charListLe xs ys = true → charListLe ys zs = true →
      charListLe xs zs = true
  | [], _, zs, _, _ => rfl
  | x :: xs, [], _, h1, _ => by simp [charListLe] at h1
  | _ :: _, _ :: _, [], _, h2 => by simp [charListLe] at h2
  | x :: xs, y :: ys, z :: zs, h1, h2 => by
    unfold charListLe at h1 h2 ⊢
    by_cases hxy : x.toNat < y.toNat
    · by_cases hyz : y.toNat < z.toNat
      · rw [if_pos (by omega)]
      · rw [if_neg hyz] at h2
        by_cases hzy : z.toNat < y.toNat
        · rw [if_pos hzy] at h2; cases h2
        · rw [if_pos (by omega)]
    · rw [if_neg hxy] at h1
      by_cases hyx : y.toNat < x.toNat
      · rw [if_pos hyx] at h1; cases h1
      · rw [if_neg hyx] at h1
        by_cases hyz : y.toNat < z.toNat
        · rw [if_pos (by omega)]
        · rw [if_neg hyz] at h2
          by_cases hzy : z.toNat < y.toNat
          · rw [if_pos hzy] at h2; cases h2
          · rw [if_neg hzy] at h2
            rw [if_neg (by omega), if_neg (by omega)]
            exact charListLe_trans xs ys zs h1 h2

theorem leftJoin_ne_nil {β : Type} (pred : β → Bool) (l : List β) :
    leftJoin pred l ≠ [] := by
  unfold leftJoin
  cases h : l.filter pred with
  | nil => simp
  | cons a as => simp

theorem mem_flatMap_const {β γ : Type} {x : γ} {l : List β} {L : List γ}
    (hne : l ≠ []) : x ∈ l.flatMap (fun _ => L) ↔ x ∈ L := by
  rw [List.mem_flatMap]
  constructor
  · rintro ⟨a, _, hx⟩; exact hx
  · intro hx
    obtain ⟨a, ha⟩ := List.exists_mem_of_ne_nil l hne
    exact ⟨a, ha, hx⟩

/-! ### C6 - eligibility characterization -/

/-- Spec wording of staleness for catalog id `c`: no price observation at
all, or the most recent observation is older than the cutoff. -/
def specStale (prices : List PriceRow) (cutoff : Nat) (c : String) : Prop :=
  (∀ r ∈ prices, r.pricecharting_id ≠ c) ∨
  (∃ r ∈ prices, r.pricecharting_id = c ∧
    (∀ r2 ∈ prices, r2.pricecharting_id = c →
      r2.retrieve_time ≤ r.retrieve_time) ∧
    r.retrieve_time < cutoff)

instance (prices : List PriceRow) (cutoff : Nat) (c : String) :
    Decidable (specStale prices cutoff c) := by
  unfold specStale; infer_instance

/-- The claim's eligibility predicate, written from its words: linked to
at least one owned-or-wanted physical game, and stale. -/
def claimEligible (db : DB) (cutoff : Nat) (c : String) : Prop :=
  (∃ g ∈ db.physical_games, ∃ j ∈ db.links, ∃ z ∈ db.pricecharting_games,
    j.physical = g.id ∧ j.pcgame = z.id ∧ z.pricecharting_id = some c ∧
    ((∃ pg ∈ db.purchased_games, pg.physical = g.id) ∨
     (∃ w ∈ db.wanted_games, w.physical = g.id))) ∧
  specStale db.prices cutoff c

instance (db : DB) (cutoff : Nat) (c : String) :
    Decidable (claimEligible db cutoff c) := by
  unfold claimEligible; infer_instance

/-- The amended eligibility predicate: the owned-or-wanted requirement is
dropped (the view's LEFT JOIN to purchased_games filters nothing and
wanted_games is never consulted); any linked catalog id qualifies. -/
def amendedEligible (db : DB) (cutoff : Nat) (c : String) : Prop :=
  (∃ g ∈ db.physical_games, ∃ j ∈ db.links, ∃ z ∈ db.pricecharting_games,
    j.physical = g.id ∧ j.pcgame = z.id ∧ z.pricecharting_id = some c) ∧
  specStale db.prices cutoff c

theorem staleOk_iff_specStale (prices : List PriceRow) (cutoff : Nat) (c : String) :
    staleOk prices cutoff (some c) = true ↔ specStale prices cutoff c := by
  have hs : staleOk prices cutoff (some c) =
      (match lastUpdate prices c with
        | none => true
        | some t => decide (t < cutoff)) := rfl
  rw [hs]
  cases h : lastUpdate prices c with
  | none =>
    unfold lastUpdate at h
    rw [List.max?_eq_none_iff, List.map_eq_nil_iff, List.filter_eq_nil_iff] at h
    constructor
    · intro _
      left
      intro r hr hc
      exact absurd (decide_eq_true_eq.mpr hc) (by simpa using h r hr)
    · intro _
      rfl
  | some t =>
    unfold lastUpdate at h
    obtain ⟨hmem, hbound⟩ := natMax?_some h
    obtain ⟨r0, hr0f, hr0t⟩ := List.mem_map.mp hmem
    rw [List.mem_filter, decide_eq_true_eq] at hr0f
    show decide (t < cutoff) = true ↔ _
    rw [decide_eq_true_eq]
    constructor
    · intro hlt
      right
      refine ⟨r0, hr0f.1, hr0f.2, ?_, hr0t ▸ hlt⟩
      intro r2 hr2 hr2c
      have : r2.retrieve_time ∈ (prices.filter
          (fun r => r.pricecharting_id = c)).map (fun r => r.retrieve_time) :=
        List.mem_map.mpr ⟨r2, List.mem_filter.mpr ⟨hr2, decide_eq_true_eq.mpr hr2c⟩, rfl⟩
      exact hr0t ▸ hbound _ this
    · rintro (habs | ⟨r, hrmem, hrc, hrbound, hrlt⟩)
      · exact absurd hr0f.2 (habs r0 hr0f.1)
      · have h1 : r.retrieve_time ≤ t := by
          refine hbound _ (List.mem_map.mpr ⟨r, List.mem_filter.mpr
            ⟨hrmem, decide_eq_true_eq.mpr hrc⟩, rfl⟩)
        have h2 : t ≤ r.retrieve_time := hr0t ▸ hrbound r0 hr0f.1 hr0f.2
        omega

theorem mem_eligibleJoinRows {db : DB} {cutoff : Nat} {row : EligibleRow} :
    row ∈ eligibleJoinRows db cutoff ↔
      ∃ g ∈ db.physical_games, ∃ j ∈ db.links, ∃ z ∈ db.pricecharting_games,
        j.physical = g.id ∧ j.pcgame = z.id ∧
        staleOk db.prices cutoff z.pricecharting_id = true ∧
        row = ⟨g.name, g.console, z.pricecharting_id⟩ := by
  unfold eligibleJoinRows
  rw [List.mem_flatMap]
  constructor
  · rintro ⟨g, hg, hrow⟩
    rw [mem_flatMap_const (leftJoin_ne_nil _ _), List.mem_flatMap] at hrow
    obtain ⟨j, hj, hrow⟩ := hrow
    rw [List.mem_filter, decide_eq_true_eq] at hj
    rw [List.mem_filterMap] at hrow
    obtain ⟨z, hz, hzz⟩ := hrow
    rw [List.mem_filter, decide_eq_true_eq] at hz
    by_cases hst : staleOk db.prices cutoff z.pricecharting_id = true
    · rw [if_pos hst] at hzz
      exact ⟨g, hg, j, hj.1, z, hz.1, hj.2, hz.2.symm, hst,
        (Option.some.injEq _ _ ▸ hzz).symm⟩
    · rw [if_neg hst] at hzz
      cases hzz
  · rintro ⟨g, hg, j, hj, z, hz, hphys, hpcg, hst, heq⟩
    refine ⟨g, hg, ?_⟩
    rw [mem_flatMap_const (leftJoin_ne_nil _ _), List.mem_flatMap]
    refine ⟨j, List.mem_filter.mpr ⟨hj, decide_eq_true_eq.mpr hphys⟩, ?_⟩
    rw [List.mem_filterMap]
    refine ⟨z, List.mem_filter.mpr ⟨hz, decide_eq_true_eq.mpr hpcg.symm⟩, ?_⟩
    rw [if_pos hst, heq]

/-- Store with one physical game that is neither owned nor wanted, linked
to catalog id X which has no observations. -/
def db6 : DB :=
  { physical_games := [⟨1, "A", "NES"⟩]
    purchased_games := []
    wanted_games := []
    pricecharting_games := [⟨1, some "X", "A", "NES"⟩]
    links := [⟨1, 1, 1⟩]
    prices := [] }

/-- C6, counterexample: catalog id X is selected by `retrieve_games`
although its only linked physical game is neither owned nor wanted, so
the claim's owned-or-wanted conjunct does not characterize the code's
selection. -/
theorem retrieve_games_unowned_selected_cex :
    (some "X") ∈ retrieve_games (.ok db6) 100 none ∧
    ¬claimEligible db6 100 "X" := by
  refine ⟨by decide, by decide⟩

/-- C6, amended: a catalog id is selected by a bound-less `retrieve_games`
run iff it is linked to at least one physical game (owned or not - the
view's LEFT JOIN to purchases filters nothing) and it is stale (no
observation ever, or most recent observation older than the cutoff); and
the underlying view rows are ordered ascending by the linked game's
display name. -/
theorem retrieve_games_eligibility (db : DB) (cutoff : Nat) (c : String) :
    ((some c) ∈ retrieve_games (.ok db) cutoff none ↔ amendedEligible db cutoff c) ∧
    List.Pairwise (fun x y => nameLe x y = true) (eligible_price_updates db cutoff) := by
  constructor
  · show (some c) ∈ dedupFirst ((eligible_price_updates db cutoff).map
      (fun r => r.pricecharting_id)) ↔ _
    rw [mem_dedupFirst, List.mem_map]
    unfold eligible_price_updates
    constructor
    · rintro ⟨row, hrow, hc⟩
      rw [mem_sqlOrderBy, mem_dedupFirst] at hrow
      obtain ⟨g, hg, j, hj, z, hz, hphys, hpcg, hst, heq⟩ :=
        mem_eligibleJoinRows.mp hrow
      have hzc : z.pricecharting_id = some c := by
        rw [heq] at hc
        exact hc
      refine ⟨⟨g, hg, j, hj, z, hz, hphys, hpcg, hzc⟩, ?_⟩
      rw [hzc] at hst
      exact (staleOk_iff_specStale _ _ _).mp hst
    · rintro ⟨⟨g, hg, j, hj, z, hz, hphys, hpcg, hzc⟩, hstale⟩
      refine ⟨⟨g.name, g.console, z.pricecharting_id⟩, ?_, hzc⟩
      rw [mem_sqlOrderBy, mem_dedupFirst]
      refine mem_eligibleJoinRows.mpr ⟨g, hg, j, hj, z, hz, hphys, hpcg, ?_, rfl⟩
      rw [hzc]
      exact (staleOk_iff_specStale _ _ _).mpr hstale
  · unfold eligible_price_updates
    exact pairwise_sqlOrderBy
      (fun a b : EligibleRow => charListLe_total a.name.data b.name.data)
      (fun a b d : EligibleRow => charListLe_trans a.name.data b.name.data d.name.data) _

/-! ### Adding owned games (add_game_to_database,
src/lib/collection_utils.py lines 397-448) -/

structure GameData where
  title : String
  console : String
  condition : String
  source : String
  price : Option ℚ
  date : String
deriving DecidableEq

structure IdData where
  pricecharting_id : String
  name : String
  console : String
deriving DecidableEq

structure GameAdditionResult where
  success : Bool
  message : String
  game_id : Option Nat
deriving DecidableEq

/-- Next AUTOINCREMENT row id (SQLite assigns max existing id + 1). -/
def nextId (ids : List Nat) : Nat := ids.foldl max 0 + 1

/-- Statements executed by `add_game_to_database`, as fault-injection
points: the sqlite engine can raise `sqlite3.Error` at any of them. -/
inductive Stmt where
  | insPhysical
  | insPurchase
  | selCatalog
  | insCatalog
  | insLink
deriving DecidableEq

def noFault : Stmt → Bool := fun _ => false

def linkFault : Stmt → Bool := fun s => decide (s = Stmt.insLink)

/-- Embedding of `add_game_to_database` (src/lib/collection_utils.py
lines 397-448). The returned `DB` is the connection's view of the store
after the call: the source runs on a caller-provided connection, catches
`sqlite3.Error` and returns a failure result, with no rollback and no
commit - statements already executed stay in the open transaction.
`fails` tells which statement (if any) the engine fails. -/
def add_game_to_database (db : DB) (game : GameData) (id_data : Option IdData)
    (fails : Stmt → Bool) : GameAdditionResult × DB :=
  if fails .insPhysical then (⟨false, "Database error", none⟩, db)
  else
    let physical_id := nextId (db.physical_games.map (fun g => g.id))
    let db1 := { db with physical_games :=
      db.physical_games ++ [⟨physical_id, game.title, game.console⟩] }
    if fails .insPurchase then (⟨false, "Database error", none⟩, db1)
    else
      let db2 := { db1 with purchased_games := db1.purchased_games ++
        [⟨nextId (db1.purchased_games.map (fun p => p.id)), physical_id,
          game.date, game.source, game.price, game.condition⟩] }
      match id_data with
      | none =>
        (⟨true, "Game added successfully without price tracking", some physical_id⟩, db2)
      | some d =>
        if fails .selCatalog then (⟨false, "Database error", none⟩, db2)
        else
          match db2.pricecharting_games.find?
              (fun z => z.pricecharting_id = some d.pricecharting_id) with
          | some zrow =>
            if fails .insLink then (⟨false, "Database error", none⟩, db2)
            else
              (⟨true, "Game added successfully with price tracking enabled",
                 some physical_id⟩,
               { db2 with links := db2.links ++
                  [⟨nextId (db2.links.map (fun j => j.id)), physical_id, zrow.id⟩] })
          | none =>
            if fails .insCatalog then (⟨false, "Database error", none⟩, db2)
            else
              let pcid := nextId (db2.pricecharting_games.map (fun z => z.id))
              let db3 := { db2 with pricecharting_games :=
                db2.pricecharting_games ++
                  [⟨pcid, some d.pricecharting_id, d.name, d.console⟩] }
              if fails .insLink then (⟨false, "Database error", none⟩, db3)
              else
                (⟨true, "Game added successfully with price tracking enabled",
                   some physical_id⟩,
                 { db3 with links := db3.links ++
                    [⟨nextId (db3.links.map (fun j => j.id)), physical_id, pcid⟩] })

def countCatalog (db : DB) (c : String) : Nat :=
  (db.pricecharting_games.filter (fun z => z.pricecharting_id = some c)).length

def chronoGame : GameData :=
  ⟨"Chrono Trigger", "SNES", "complete", "eBay", some 275, "2024-01-15"⟩

def chronoId : IdData := ⟨"CT-SNES-1", "Chrono Trigger", "SNES"⟩

/-- C3: when the catalog-link insert raises `sqlite3.Error`, the call
returns a failure result, yet the PhysicalGame and PurchaseRecord rows it
inserted are still in the connection's open transaction (nothing was
rolled back); the caller's routine commit then persists them. -/
theorem add_game_link_failure_keeps_rows :
    (add_game_to_database dbEmpty chronoGame (some chronoId) linkFault).1.success
        = false ∧
    (add_game_to_database dbEmpty chronoGame (some chronoId) linkFault).2.physical_games
        = [⟨1, "Chrono Trigger", "SNES"⟩] ∧
    (add_game_to_database dbEmpty chronoGame (some chronoId) linkFault).2.purchased_games
        = [⟨1, 1, "2024-01-15", "eBay", some 275, "complete"⟩] := by
  refine ⟨by decide, by decide, by decide⟩

def afterFirstAdd (db : DB) (g1 : GameData) (d : IdData) : DB :=
  (add_game_to_database db g1 (some d) noFault).2

def afterSecondAdd (db : DB) (g1 g2 : GameData) (d : IdData) : DB :=
  (add_game_to_database (afterFirstAdd db g1 d) g2 (some d) noFault).2

/-- C4: in a store whose catalog table holds at most one row with the
resolved catalog id (the schema's UNIQUE constraint), two fault-free
`add_game_to_database` calls with the same id leave exactly one catalog
row with that id; the second call inserts no catalog row and both calls
link their new physical game to that same row. -/
theorem add_game_to_database_dedups (db : DB) (g1 g2 : GameData) (d : IdData)
    (hcount : countCatalog db d.pricecharting_id ≤ 1) :
    countCatalog (afterSecondAdd db g1 g2 d) d.pricecharting_id = 1 ∧
    (afterSecondAdd db g1 g2 d).pricecharting_games =
      (afterFirstAdd db g1 d).pricecharting_games ∧
    ∃ rid l1 l2,
      (afterFirstAdd db g1 d).links = db.links ++ [l1] ∧
      (afterSecondAdd db g1 g2 d).links = (afterFirstAdd db g1 d).links ++ [l2] ∧
      l1.pcgame = rid ∧ l2.pcgame = rid ∧
      ∃ z ∈ (afterSecondAdd db g1 g2 d).pricecharting_games,
        z.pricecharting_id = some d.pricecharting_id ∧ z.id = rid := by
  unfold afterSecondAdd afterFirstAdd countCatalog at *
  cases hf : db.pricecharting_games.find?
      (fun z => z.pricecharting_id = some d.pricecharting_id) with
  | some zrow =>
    have hmem := List.mem_of_find?_eq_some hf
    have hpred := List.find?_some hf
    have hpos : 0 < (db.pricecharting_games.filter
        (fun z => z.pricecharting_id = some d.pricecharting_id)).length :=
      List.length_pos_of_mem (List.mem_filter.mpr ⟨hmem, hpred⟩)
    simp only [add_game_to_database, noFault, Bool.false_eq_true, if_false, hf]
    refine ⟨by omega, trivial, zrow.id, _, _, rfl, rfl, rfl, rfl, ?_⟩
    exact ⟨zrow, hmem, decide_eq_true_eq.mp hpred, rfl⟩
  | none =>
    have hnil : db.pricecharting_games.filter
        (fun z => z.pricecharting_id = some d.pricecharting_id) = [] := by
      rw [List.filter_eq_nil_iff]
      intro a ha hp
      have := List.find?_eq_none.mp hf a ha
      simp [hp] at this
    simp only [add_game_to_database, noFault, Bool.false_eq_true, if_false, hf,
      List.find?_append, Option.none_or, List.find?_cons, decide_eq_true_eq,
      Option.some.injEq, decide_True, List.filter_append, hnil]
    refine ⟨by simp, trivial,
      nextId (db.pricecharting_games.map (fun z => z.id)), _, _, rfl, rfl, rfl, rfl, ?_⟩
    exact ⟨⟨nextId (db.pricecharting_games.map (fun z => z.id)),
      some d.pricecharting_id, d.name, d.console⟩, by simp, rfl, rfl⟩

/-- Witness for `add_game_to_database_dedups` on an empty store. -/
theorem add_game_to_database_dedups_witness :
    countCatalog dbEmpty chronoId.pricecharting_id ≤ 1 ∧
    (countCatalog (afterSecondAdd dbEmpty chronoGame chronoGame chronoId)
        chronoId.pricecharting_id = 1 ∧
     (afterSecondAdd dbEmpty chronoGame chronoGame chronoId).pricecharting_games =
       (afterFirstAdd dbEmpty chronoGame chronoId).pricecharting_games ∧
     ∃ rid l1 l2,
       (afterFirstAdd dbEmpty chronoGame chronoId).links = dbEmpty.links ++ [l1] ∧
       (afterSecondAdd dbEmpty chronoGame chronoGame chronoId).links =
         (afterFirstAdd dbEmpty chronoGame chronoId).links ++ [l2] ∧
       l1.pcgame = rid ∧ l2.pcgame = rid ∧
       ∃ z ∈ (afterSecondAdd dbEmpty chronoGame chronoGame chronoId).pricecharting_games,
         z.pricecharting_id = some chronoId.pricecharting_id ∧ z.id = rid) :=
  ⟨by decide,
   add_game_to_database_dedups dbEmpty chronoGame chronoGame chronoId (by decide)⟩

/-! ### Batch price refresh (GameLibrary.retrieve_prices, src/collection.py
lines 217-287, fetching through src/lib/price_retrieval.py) -/

/-- Embedding of `get_game_prices` from src/lib/price_retrieval.py lines
16-37 — the version `collection.py` imports: a transport failure
(`requests.RequestException`) is caught, printed and turned into None.
The `fetched` argument is the outcome of the HTTP GET. -/
def get_game_prices (fetched : Except String Snapshot) : Option Snapshot :=
  match fetched with
  | .ok s => some s
  | .error _ => none

structure BatchTally where
  processed : Nat
  all_failed : List (String × String)
  inserted : List PriceRow
deriving DecidableEq

/-- Embedding of the per-game loop of `GameLibrary.retrieve_prices`
(src/collection.py lines 254-279): `successful` always receives the
result of `get_game_prices` — the `except ValueError` branch that fills
`failed` is dead code, because the imported `get_game_prices` returns
None instead of raising — so `successful` is never empty, the records of
the (possibly None) result are inserted, and `processed` grows by one. -/
def retrieve_prices_loop (games : List String)
    (fetch : String → Except String Snapshot) : BatchTally :=
  games.foldl
    (fun acc g =>
      let successful : List (Option Snapshot) := [get_game_prices (fetch g)]
      let failed : List (String × String) := []
      if successful.isEmpty then
        { acc with all_failed := acc.all_failed ++ failed }
      else
        { processed := acc.processed + successful.length
          all_failed := acc.all_failed ++ failed
          inserted := acc.inserted ++ insert_price_records successful })
    ⟨0, [], []⟩

/-! ### Valuation and reporting queries (src/lib/collection_utils.py)

All "current price" logic in the source repeats one pattern: a CTE
`latest_prices` ranking rows by `ROW_NUMBER() OVER (PARTITION BY
pricecharting_id, condition ORDER BY retrieve_time DESC)` and keeping
`rn = 1`, or an equivalent correlated subquery `ORDER BY retrieve_time
DESC LIMIT 1`. Both select a row of maximal retrieve_time within the
(catalog id, condition) partition; `argmaxTime` embeds that selection
(ties, which SQL leaves unspecified, resolve deterministically). -/

def argmaxTime : List PriceRow → Option PriceRow
  | [] => none
  | r :: rest =>
    match argmaxTime rest with
    | none => some r
    | some b => if b.retrieve_time < r.retrieve_time then some r else some b

def argminTime : List PriceRow → Option PriceRow
  | [] => none
  | r :: rest =>
    match argminTime rest with
    | none => some r
    | some b => if r.retrieve_time < b.retrieve_time then some r else some b

/-- The rn = 1 row of one (catalog id, condition) partition. -/
def latestObs (ps : List PriceRow) (c : String) (cond : String) : Option PriceRow :=
  argmaxTime (ps.filter (fun r => r.pricecharting_id = c ∧ r.condition = cond))

def oldestObs (ps : List PriceRow) (c : String) (cond : String) : Option PriceRow :=
  argminTime (ps.filter (fun r => r.pricecharting_id = c ∧ r.condition = cond))

def groupKeys (ps : List PriceRow) : List (String × String) :=
  dedupFirst (ps.map (fun r => (r.pricecharting_id, r.condition)))

/-- All rn = 1 rows of the latest_prices CTE. -/
def latestRows (ps : List PriceRow) : List PriceRow :=
  (groupKeys ps).filterMap (fun k => latestObs ps k.1 k.2)

/-- All rn = 1 rows of the oldest_prices CTE. -/
def oldestRows (ps : List PriceRow) : List PriceRow :=
  (groupKeys ps).filterMap (fun k => oldestObs ps k.1 k.2)

/-- SQL LOWER() equality, as the source's case-insensitive condition
match; ASCII lowering as in `pyLower`. -/
def lowerEq (a b : String) : Bool := decide (pyLower a.data = pyLower b.data)

/-- Python `float(x) if x else None`: both SQL NULL and 0 map to None. -/
def pyFloatOrNone (p : Option ℚ) : Option ℚ :=
  match p with
  | none => none
  | some q => if q = 0 then none else some q

/-- SQLite ROUND(x, d): half away from zero (SQL decimals idealized
as `ℚ`). -/
def sqliteRound (x : ℚ) (d : Nat) : ℚ :=
  let m : ℚ := (10 : ℚ) ^ d
  (if 0 ≤ x then ((⌊x * m + 1 / 2⌋ : ℤ) : ℚ) else -((⌊(-x) * m + 1 / 2⌋ : ℤ) : ℚ)) / m

/-- SQLite division: x / 0 yields NULL. -/
def sqlDiv (a b : ℚ) : Option ℚ := if b = 0 then none else some (a / b)

/-- SQL `a != b` under three-valued logic: false when either is NULL. -/
def sqlNeq (a b : Option ℚ) : Bool :=
  match a, b with
  | some x, some y => decide (x ≠ y)
  | _, _ => false

def dedupFirstByAux {α β : Type} [DecidableEq β] (key : α → β) (seen : List β) :
    List α → List α
  | [] => []
  | a :: rest =>
    if key a ∈ seen then dedupFirstByAux key seen rest
    else a :: dedupFirstByAux key (key a :: seen) rest

/-- Embedding of SQLite GROUP BY with bare columns: one representative
row per key, first occurrence. -/
def dedupFirstBy {α β : Type} [DecidableEq β] (key : α → β) (l : List α) : List α :=
  dedupFirstByAux key [] l

def isInfixList (needle : List Char) : List Char → Bool
  | [] => needle.isEmpty
  | c :: rest => needle.isPrefixOf (c :: rest) || isInfixList needle rest

/-- SQL LIKE '%term%' with LOWER on both sides. -/
def likeMatch (s term : String) : Bool :=
  isInfixList (pyLower term.data) (pyLower s.data)

/-- Embedding of the total_purchase query of `get_collection_value_stats`
(src/lib/collection_utils.py lines 149-153): SUM of CAST(price), NULLs
contributing nothing, COALESCE to 0. -/
def total_purchase (db : DB) : ℚ :=
  (db.purchased_games.map (fun pg => pg.price.getD 0)).sum

/-- Embedding of the total_market query of `get_collection_value_stats`
(src/lib/collection_utils.py lines 156-174): owned games joined to their
catalog row and to the rn = 1 latest price of the matching
(case-insensitive) condition; SUM over the joined prices, missing joins
and NULL prices contributing nothing. -/
def total_market (db : DB) : ℚ :=
  (db.purchased_games.flatMap (fun pg =>
    (db.physical_games.filter (fun p => p.id = pg.physical)).flatMap (fun _p =>
      (db.links.filter (fun j => j.physical = pg.physical)).flatMap (fun j =>
        (db.pricecharting_games.filter (fun z => z.id = j.pcgame)).flatMap (fun z =>
          (latestRows db.prices).filterMap (fun lp =>
            if some lp.pricecharting_id = z.pricecharting_id ∧
               lowerEq pg.condition lp.condition
            then some (lp.price.getD 0) else none)))))).sum

structure TopRow where
  name : String
  console : String
  condition : String
  purchase : Option ℚ
  current : ℚ
deriving DecidableEq

def optGeQ (a b : Option ℚ) : Bool :=
  match a, b with
  | none, none => true
  | none, some _ => false
  | some _, none => true
  | some x, some y => decide (y ≤ x)

/-- Embedding of the top-5 query of `get_collection_value_stats`
(src/lib/collection_utils.py lines 177-203): same join, rows with a
non-NULL current price, ordered by that price descending, LIMIT 5. -/
def top_valuable (db : DB) : List TopRow :=
  let rows := db.purchased_games.flatMap (fun pg =>
    (db.physical_games.filter (fun p => p.id = pg.physical)).flatMap (fun p =>
      (db.links.filter (fun j => j.physical = pg.physical)).flatMap (fun j =>
        (db.pricecharting_games.filter (fun z => z.id = j.pcgame)).flatMap (fun z =>
          (latestRows db.prices).filterMap (fun lp =>
            match lp.price with
            | some q =>
              if some lp.pricecharting_id = z.pricecharting_id ∧
                 lowerEq pg.condition lp.condition
              then some (⟨p.name, p.console, pg.condition, pg.price, q⟩ : TopRow)
              else none
            | none => none)))))
  (sqlOrderBy (fun x y => decide (y.current ≤ x.current)) rows).take 5

structure ChangeRow where
  name : String
  console : String
  condition : String
  old_price : Option ℚ
  new_price : Option ℚ
  price_change : Option ℚ
  percent_change : Option ℚ
deriving DecidableEq

def mkChangeRow (p : PhysRow) (pg : PurchaseRow) (op lp : PriceRow) : ChangeRow :=
  { name := p.name
    console := p.console
    condition := pg.condition
    old_price := op.price
    new_price := lp.price
    price_change :=
      match op.price, lp.price with
      | some o, some n => some (n - o)
      | _, _ => none
    percent_change :=
      match op.price, lp.price with
      | some o, some n => (sqlDiv (n - o) o).map (fun q => sqliteRound (q * 100) 2)
      | _, _ => none }

def absKey (e : ChangeRow) : Option ℚ := e.price_change.map (fun q => |q|)

/-- Embedding of the biggest-changes query of `get_collection_value_stats`
(src/lib/collection_utils.py lines 206-248): latest and oldest rn = 1
rows within the trailing window (`winStart` models
date('now', '-3 months')), inner-joined to owned games on the
case-insensitive condition, keeping pairs with `op.price != lp.price`
(three-valued: NULL pairs drop out), percent = ROUND((new-old)/old*100, 2)
with SQLite's NULL on division by zero, ordered by |change| descending,
LIMIT 10. -/
def biggest_changes (db : DB) (winStart : Nat) : List ChangeRow :=
  let wps := db.prices.filter (fun r => winStart ≤ r.retrieve_time)
  let rows := db.purchased_games.flatMap (fun pg =>
    (db.physical_games.filter (fun p => p.id = pg.physical)).flatMap (fun p =>
      (db.links.filter (fun j => j.physical = pg.physical)).flatMap (fun j =>
        (db.pricecharting_games.filter (fun z => z.id = j.pcgame)).flatMap (fun z =>
          (latestRows wps).flatMap (fun lp =>
            if some lp.pricecharting_id = z.pricecharting_id ∧
               lowerEq pg.condition lp.condition then
              (oldestRows wps).filterMap (fun op =>
                if some op.pricecharting_id = z.pricecharting_id ∧
                   lowerEq pg.condition op.condition ∧
                   sqlNeq op.price lp.price then
                  some (mkChangeRow p pg op lp)
                else none)
            else [])))))
  (sqlOrderBy (fun x y => optGeQ (absKey x) (absKey y)) rows).take 10

structure SearchResult where
  id : Nat
  name : String
  console : String
  condition : Option String
  source : Option String
  price : Option ℚ
  date : Option String
  pricecharting_id : String
  current_prices : Option ℚ × Option ℚ × Option ℚ
  is_wanted : Bool
deriving DecidableEq

/-- The correlated current-price subquery of `search_games`: latest row
for the exact condition literal, keyed on the (nullable) catalog id. -/
def subqueryLatestPrice (ps : List PriceRow) (pcid : Option String) (cond : String) :
    Option ℚ :=
  match pcid with
  | none => none
  | some c =>
    match latestObs ps c cond with
    | none => none
    | some r => r.price

def buildSearchRow (db : DB) (p : PhysRow) (pgOpt : Option PurchaseRow)
    (wOpt : Option WantRow) (zOpt : Option PCRow) : SearchResult :=
  let pcid : Option String := zOpt.bind (fun z => z.pricecharting_id)
  { id := p.id
    name := p.name
    console := p.console
    condition := pgOpt.map (fun pg => pg.condition)
    source := pgOpt.map (fun pg => pg.source)
    price := pgOpt.bind (fun pg => pg.price)
    date := pgOpt.map (fun pg => pg.acquisition_date)
    pricecharting_id :=
      match pcid with
      | some c => c
      | none => "Not identified"
    current_prices :=
      (pyFloatOrNone (subqueryLatestPrice db.prices pcid "complete"),
       pyFloatOrNone (subqueryLatestPrice db.prices pcid "loose"),
       pyFloatOrNone (subqueryLatestPrice db.prices pcid "new"))
    is_wanted := wOpt.isSome }

/-- Embedding of `search_games` (src/lib/collection_utils.py lines
60-142): LIKE filter on name or console, four LEFT JOINs, per-condition
correlated latest-price subqueries, Python's falsy float coercion,
GROUP BY p.id (one representative row per game), ORDER BY name ASC. -/
def search_games (db : DB) (term : String) : List SearchResult :=
  let rows := (db.physical_games.filter
      (fun p => likeMatch p.name term || likeMatch p.console term)).flatMap (fun p =>
    (leftJoin (fun pg => pg.physical = p.id) db.purchased_games).flatMap (fun pgOpt =>
      (leftJoin (fun w => w.physical = p.id) db.wanted_games).flatMap (fun wOpt =>
        (leftJoin (fun j => j.physical = p.id) db.links).flatMap (fun jOpt =>
          (leftJoin (fun z =>
              match jOpt with
              | some j => decide (z.id = j.pcgame)
              | none => false) db.pricecharting_games).map (fun zOpt =>
            buildSearchRow db p pgOpt wOpt zOpt)))))
  sqlOrderBy (fun x y => charListLe x.name.data y.name.data)
    (dedupFirstBy (fun r => r.id) rows)

structure ConsoleDistribution where
  console : String
  game_count : Nat
  percentage : ℚ
  most_expensive_game : Option String
  most_expensive_condition : Option String
  most_expensive_price : Option ℚ
deriving DecidableEq

def ownedRows (db : DB) : List (PhysRow × PurchaseRow) :=
  db.physical_games.flatMap (fun p =>
    (db.purchased_games.filter (fun pg => pg.physical = p.id)).map (fun pg => (p, pg)))

/-- The most_expensive CTE of `get_console_distribution`: per console the
rn = 1 row ordered by current price descending (SQL NULLs sort last in
DESC order). -/
def mostExpensiveFor (db : DB) (c : String) : Option (String × String × Option ℚ) :=
  let rows := (ownedRows db).filter (fun pr => pr.1.console = c) |>.flatMap (fun pr =>
    (db.links.filter (fun j => j.physical = pr.1.id)).flatMap (fun j =>
      (db.pricecharting_games.filter (fun z => z.id = j.pcgame)).flatMap (fun z =>
        (latestRows db.prices).filterMap (fun lp =>
          if some lp.pricecharting_id = z.pricecharting_id ∧
             lowerEq pr.2.condition lp.condition
          then some (pr.1.name, pr.2.condition, lp.price) else none))))
  (sqlOrderBy (fun x y => optGeQ x.2.2 y.2.2) rows).head?

/-- Embedding of `get_console_distribution` (src/lib/collection_utils.py
lines 258-317): owned games grouped by console with count and
ROUND(count*100/total, 1) percentage, LEFT JOIN to the per-console most
expensive current game, ordered by count descending then console. -/
def get_console_distribution (db : DB) : List ConsoleDistribution :=
  let consoles := dedupFirst ((ownedRows db).map (fun pr => pr.1.console))
  let total := (ownedRows db).length
  let rows := consoles.map (fun c =>
    let cnt := ((ownedRows db).filter (fun pr => pr.1.console = c)).length
    match mostExpensiveFor db c with
    | some me =>
      (⟨c, cnt, sqliteRound ((cnt : ℚ) * 100 / (total : ℚ)) 1,
        some me.1, some me.2.1, pyFloatOrNone me.2.2⟩ : ConsoleDistribution)
    | none =>
      (⟨c, cnt, sqliteRound ((cnt : ℚ) * 100 / (total : ℚ)) 1,
        none, none, none⟩ : ConsoleDistribution))
  sqlOrderBy (fun x y =>
    if x.game_count = y.game_count then charListLe x.console.data y.console.data
    else decide (y.game_count ≤ x.game_count)) rows

structure RecentAddition where
  name : String
  console : String
  condition : Option String
  source : Option String
  price : Option ℚ
  date : Option String
  current_prices : Option ℚ × Option ℚ × Option ℚ
  is_wanted : Bool
deriving DecidableEq

/-- SQLite storage-class ordering for the COALESCE(date, wishlist id)
sort key: NULL < INTEGER < TEXT. -/
inductive SqlVal where
  | null
  | int (n : Nat)
  | text (s : String)
deriving DecidableEq

def sqlValGe (a b : SqlVal) : Bool :=
  match a, b with
  | .null, .null => true
  | .null, _ => false
  | _, .null => true
  | .int m, .int n => decide (n ≤ m)
  | .int _, .text _ => false
  | .text _, .int _ => true
  | .text s, .text t => charListLe t.data s.data

def recentKey (pgOpt : Option PurchaseRow) (wOpt : Option WantRow) : SqlVal :=
  match pgOpt with
  | some pg => .text pg.acquisition_date
  | none =>
    match wOpt with
    | some w => .int w.id
    | none => .null

def buildRecentRow (db : DB) (p : PhysRow) (pgOpt : Option PurchaseRow)
    (wOpt : Option WantRow) (zOpt : Option PCRow) : RecentAddition :=
  let pcid : Option String := zOpt.bind (fun z => z.pricecharting_id)
  { name := p.name
    console := p.console
    condition := pgOpt.map (fun pg => pg.condition)
    source := pgOpt.map (fun pg => pg.source)
    price := pyFloatOrNone (pgOpt.bind (fun pg => pg.price))
    date := pgOpt.map (fun pg => pg.acquisition_date)
    current_prices :=
      (pyFloatOrNone (subqueryLatestPrice db.prices pcid "complete"),
       pyFloatOrNone (subqueryLatestPrice db.prices pcid "loose"),
       pyFloatOrNone (subqueryLatestPrice db.prices pcid "new"))
    is_wanted := wOpt.isSome }

/-- Embedding of `get_recent_additions` (src/lib/collection_utils.py
lines 319-395): same LEFT JOIN chain as `search_games`, rn = 1 latest
prices per condition, ordered by COALESCE(acquisition_date, wishlist id)
descending under SQLite's storage-class ordering, LIMIT `limit`. -/
def get_recent_additions (db : DB) (limit : Nat) : List RecentAddition :=
  let rows := db.physical_games.flatMap (fun p =>
    (leftJoin (fun pg => pg.physical = p.id) db.purchased_games).flatMap (fun pgOpt =>
      (leftJoin (fun w => w.physical = p.id) db.wanted_games).flatMap (fun wOpt =>
        (leftJoin (fun j => j.physical = p.id) db.links).flatMap (fun jOpt =>
          (leftJoin (fun z =>
              match jOpt with
              | some j => decide (z.id = j.pcgame)
              | none => false) db.pricecharting_games).map (fun zOpt =>
            (recentKey pgOpt wOpt, buildRecentRow db p pgOpt wOpt zOpt))))))
  ((sqlOrderBy (fun x y => sqlValGe x.1 y.1) rows).take limit).map (fun r => r.2)

/-- Component of the per-condition current-price triple matching a
condition name. -/
def priceAt (cp : Option ℚ × Option ℚ × Option ℚ) (cond : String) : Option ℚ :=
  if cond = "complete" then cp.1
  else if cond = "loose" then cp.2.1
  else cp.2.2

/-! ### Latest-observation lemmas (shared by the valuation queries) -/

theorem argmaxTime_mem {r : PriceRow} :
    ∀ {l : List PriceRow}, argmaxTime l = some r → r ∈ l
  | [], h => by cases h
  | a :: rest, h => by
    unfold argmaxTime at h
    cases hrec : argmaxTime rest with
    | none =>
      rw [hrec] at h
      exact List.mem_cons.mpr (Or.inl (Option.some.injEq _ _ ▸ h).symm)
    | some b =>
      rw [hrec] at h
      have h' : (if b.retrieve_time < a.retrieve_time then some a else some b)
          = some r := h
      by_cases hlt : b.retrieve_time < a.retrieve_time
      · rw [if_pos hlt] at h'
        exact List.mem_cons.mpr (Or.inl (Option.some.injEq _ _ ▸ h').symm)
      · rw [if_neg hlt] at h'
        have hb : b = r := Option.some.injEq _ _ ▸ h'
        exact List.mem_cons_of_mem _ (hb ▸ argmaxTime_mem hrec)

/-- The rn = 1 selection picks the later of two observations. -/
theorem latestObs_two (ps : List PriceRow) (c cond : String) (r1 r2 : PriceRow)
    (hfe : ps.filter (fun r => r.pricecharting_id = c ∧ r.condition = cond) = [r1, r2])
    (ht : r1.retrieve_time < r2.retrieve_time) :
    latestObs ps c cond = some r2 := by
  unfold latestObs
  rw [hfe]
  unfold argmaxTime argmaxTime argmaxTime
  simp [Nat.not_lt.mpr (Nat.le_of_lt ht)]

theorem latestObs_props {ps : List PriceRow} {c cond : String} {r : PriceRow}
    (h : latestObs ps c cond = some r) :
    r ∈ ps ∧ r.pricecharting_id = c ∧ r.condition = cond := by
  unfold latestObs at h
  have hm := argmaxTime_mem h
  rw [List.mem_filter, decide_eq_true_eq] at hm
  exact ⟨hm.1, hm.2⟩

theorem filter_pair_props (ps : List PriceRow) (c cond : String) (r1 r2 : PriceRow)
    (hfe : ps.filter (fun r => r.pricecharting_id = c ∧ r.condition = cond) = [r1, r2]) :
    (r1 ∈ ps ∧ r1.pricecharting_id = c ∧ r1.condition = cond) ∧
    (r2 ∈ ps ∧ r2.pricecharting_id = c ∧ r2.condition = cond) := by
  have h1 : r1 ∈ ps.filter (fun r => r.pricecharting_id = c ∧ r.condition = cond) := by
    rw [hfe]; simp
  have h2 : r2 ∈ ps.filter (fun r => r.pricecharting_id = c ∧ r.condition = cond) := by
    rw [hfe]; simp
  simp only [List.mem_filter, decide_eq_true_eq] at h1 h2
  exact ⟨⟨h1.1, h1.2⟩, ⟨h2.1, h2.2⟩⟩

theorem filterMap_eq_single {α γ : Type} {f : α → Option γ} {k : α} {y : γ} :
    ∀ {l : List α}, f k = some y → k ∈ l → l.Nodup →
      (∀ a ∈ l, f a ≠ none → a = k) → l.filterMap f = [y]
  | [], _, hmem, _, _ => absurd hmem (List.not_mem_nil k)
  | a :: rest, hk, hmem, hnodup, honly => by
    obtain ⟨hanotin, hrestnd⟩ := List.nodup_cons.mp hnodup
    by_cases hak : a = k
    · subst hak
      have hzero : ∀ b ∈ rest, f b = none := by
        intro b hb
        by_contra hfb
        exact hanotin ((honly b (List.mem_cons_of_mem _ hb) hfb) ▸ hb)
      rw [List.filterMap_cons, hk]
      rw [List.filterMap_eq_nil_iff.mpr hzero]
    · have hfa : f a = none := by
        by_contra hfa
        exact hak (honly a (List.mem_cons_self _ _) hfa)
      rw [List.filterMap_cons, hfa]
      have hmem2 : k ∈ rest := (List.mem_cons.mp hmem).resolve_left (fun h => hak h.symm)
      exact filterMap_eq_single hk hmem2 hrestnd
        (fun b hb => honly b (List.mem_cons_of_mem _ hb))

theorem lowerEq_refl (s : String) : lowerEq s s = true := by
  simp [lowerEq]

/-- Central extraction lemma: when the rows matching the target
(catalog id, condition) group - exactly and case-insensitively - are
r1 then r2 with r1 older, a filterMap over the latest_prices CTE rows
that only fires on that group yields exactly the image of r2. -/
theorem latestRows_filterMap_single {γ : Type} (ps : List PriceRow) (c cond : String)
    (r1 r2 : PriceRow) (f : PriceRow → Option γ) (y : γ)
    (hfe : ps.filter (fun r => r.pricecharting_id = c ∧ r.condition = cond) = [r1, r2])
    (hfl : ps.filter (fun r => r.pricecharting_id = c ∧ lowerEq cond r.condition) = [r1, r2])
    (ht : r1.retrieve_time < r2.retrieve_time)
    (hf2 : f r2 = some y)
    (honly : ∀ lp, f lp ≠ none →
      lp.pricecharting_id = c ∧ lowerEq cond lp.condition = true) :
    (latestRows ps).filterMap f = [y] := by
  obtain ⟨⟨hm1, hc1, hd1⟩, ⟨hm2, hc2, hd2⟩⟩ := filter_pair_props ps c cond r1 r2 hfe
  have hlat : latestObs ps c cond = some r2 := latestObs_two ps c cond r1 r2 hfe ht
  unfold latestRows
  rw [List.filterMap_filterMap]
  have hkey : (c, cond) ∈ groupKeys ps := by
    unfold groupKeys
    rw [mem_dedupFirst, List.mem_map]
    exact ⟨r2, hm2, by rw [hc2, hd2]⟩
  refine filterMap_eq_single ?_ hkey (nodup_dedupFirst _) ?_
  · show (latestObs ps c cond).bind f = some y
    rw [hlat]
    exact hf2
  · rintro ⟨kc, kcond⟩ hk hne
    show (kc, kcond) = (c, cond)
    simp only [Option.bind] at hne
    cases hlo : latestObs ps kc kcond with
    | none => rw [hlo] at hne; simp at hne
    | some lp =>
      rw [hlo] at hne
      simp only [] at hne
      obtain ⟨hlpmem, hlpc, hlpcond⟩ := latestObs_props hlo
      obtain ⟨hfc, hfcond⟩ := honly lp hne
      have hlpl : lp ∈ ps.filter
          (fun r => r.pricecharting_id = c ∧ lowerEq cond r.condition) := by
        rw [List.mem_filter, decide_eq_true_eq]
        exact ⟨hlpmem, hfc, hfcond⟩
      rw [hfl] at hlpl
      have hcondeq : lp.condition = cond := by
        rcases List.mem_cons.mp hlpl with h | h
        · rw [h, hd1]
        · rw [List.mem_singleton.mp h, hd2]
      rw [← hlpc, ← hlpcond, hfc, hcondeq]

/-- Family of stores for the latest-wins property: one owned game (bought
for 275 at user-entered condition `cond`) linked to catalog id CT-SNES-1,
over an arbitrary price history `ps`. -/
def valStore (cond : String) (ps : List PriceRow) : DB :=
  { physical_games := [⟨1, "Chrono Trigger", "SNES"⟩]
    purchased_games := [⟨1, 1, "2024-01-15", "eBay", some 275, cond⟩]
    wanted_games := []
    pricecharting_games := [⟨1, some "CT-SNES-1", "Chrono Trigger", "SNES"⟩]
    links := [⟨1, 1, 1⟩]
    prices := ps }

/-- C5: the rn = 1 selection shared by every valuation query returns the
later of two observations (first conjunct, over arbitrary price tables),
and on a store whose observations for the owned game's (catalog id,
condition) are exactly r1 then r2 with r1 older, each of the five
current-price queries - total market value, top valuable, search
results, console distribution, recent additions - reports r2's price. -/
theorem latest_observation_wins (ps : List PriceRow) (r1 r2 : PriceRow) (v : ℚ)
    (cond : String)
    (hfe : ps.filter (fun r => r.pricecharting_id = "CT-SNES-1" ∧ r.condition = cond)
      = [r1, r2])
    (hfl : ps.filter (fun r => r.pricecharting_id = "CT-SNES-1" ∧
      lowerEq cond r.condition) = [r1, r2])
    (ht : r1.retrieve_time < r2.retrieve_time)
    (hv : r2.price = some v) (hv0 : v ≠ 0)
    (hcond : cond = "complete" ∨ cond = "loose" ∨ cond = "new") :
    (∀ (qs : List PriceRow) (c cc : String) (s1 s2 : PriceRow),
        qs.filter (fun r => r.pricecharting_id = c ∧ r.condition = cc) = [s1, s2] →
        s1.retrieve_time < s2.retrieve_time → latestObs qs c cc = some s2) ∧
    total_market (valStore cond ps) = v ∧
    top_valuable (valStore cond ps) = [⟨"Chrono Trigger", "SNES", cond, some 275, v⟩] ∧
    (∃ res, search_games (valStore cond ps) "chrono" = [res] ∧
      priceAt res.current_prices cond = some v) ∧
    (∃ drow, get_console_distribution (valStore cond ps) = [drow] ∧
      drow.most_expensive_price = some v) ∧
    (∃ rrow, get_recent_additions (valStore cond ps) 10 = [rrow] ∧
      priceAt rrow.current_prices cond = some v) := by
  obtain ⟨⟨hm1, hc1, hd1⟩, ⟨hm2, hc2, hd2⟩⟩ := filter_pair_props ps _ cond r1 r2 hfe
  refine ⟨fun qs c cc s1 s2 hq htq => latestObs_two qs c cc s1 s2 hq htq,
    ?_, ?_, ?_, ?_, ?_⟩
  · simp only [total_market, valStore]
    simp
    rw [latestRows_filterMap_single ps "CT-SNES-1" cond r1 r2
      (fun lp => if lp.pricecharting_id = "CT-SNES-1" ∧ lowerEq cond lp.condition = true
        then some (lp.price.getD 0) else none) (v) hfe hfl ht
      (by simp [hc2, hd2, lowerEq_refl, hv])
      (by intro lp hne
          by_cases h : lp.pricecharting_id = "CT-SNES-1" ∧ lowerEq cond lp.condition = true
          · exact ⟨h.1, h.2⟩
          · simp [h] at hne)]
    simp
  · simp only [top_valuable, valStore]
    simp
    rw [latestRows_filterMap_single ps "CT-SNES-1" cond r1 r2
      (fun lp =>
        match lp.price with
        | some q =>
          if lp.pricecharting_id = "CT-SNES-1" ∧ lowerEq cond lp.condition = true then
            some (⟨"Chrono Trigger", "SNES", cond, some 275, q⟩ : TopRow)
          else none
        | none => none)
      (⟨"Chrono Trigger", "SNES", cond, some 275, v⟩ : TopRow) hfe hfl ht
      (by simp [hv, hc2, hd2, lowerEq_refl])
      (by intro lp hne
          cases hp : lp.price with
          | none => simp [hp] at hne
          | some q =>
            by_cases h : lp.pricecharting_id = "CT-SNES-1" ∧ lowerEq cond lp.condition = true
            · exact ⟨h.1, h.2⟩
            · simp [hp, h] at hne)]
    simp [sqlOrderBy, insertLe]
  · have hlike : likeMatch "Chrono Trigger" "chrono" = true := by decide
    have hlike2 : likeMatch "SNES" "chrono" = false := by decide
    simp only [search_games, valStore]
    simp [hlike, hlike2, leftJoin, dedupFirstBy, dedupFirstByAux, sqlOrderBy, insertLe]
    rcases hcond with h | h | h <;> subst h
    · have hlat := latestObs_two ps "CT-SNES-1" "complete" r1 r2 hfe ht
      simp [buildSearchRow, subqueryLatestPrice, priceAt, hlat, hv, pyFloatOrNone, hv0]
    · have hlat := latestObs_two ps "CT-SNES-1" "loose" r1 r2 hfe ht
      simp [buildSearchRow, subqueryLatestPrice, priceAt, hlat, hv, pyFloatOrNone, hv0]
    · have hlat := latestObs_two ps "CT-SNES-1" "new" r1 r2 hfe ht
      simp [buildSearchRow, subqueryLatestPrice, priceAt, hlat, hv, pyFloatOrNone, hv0]
  · have hme : mostExpensiveFor (valStore cond ps) "SNES" =
        some ("Chrono Trigger", cond, r2.price) := by
      simp only [mostExpensiveFor, valStore]
      simp [ownedRows]
      rw [latestRows_filterMap_single ps "CT-SNES-1" cond r1 r2
        (fun lp => if lp.pricecharting_id = "CT-SNES-1" ∧ lowerEq cond lp.condition = true
          then some ("Chrono Trigger", cond, lp.price) else none)
        ("Chrono Trigger", cond, r2.price) hfe hfl ht
        (by simp [hc2, hd2, lowerEq_refl])
        (by intro lp hne
            by_cases h : lp.pricecharting_id = "CT-SNES-1" ∧
                lowerEq cond lp.condition = true
            · exact ⟨h.1, h.2⟩
            · simp [h] at hne)]
      simp [sqlOrderBy, insertLe]
    simp only [get_console_distribution, valStore]
    simp only [ownedRows, List.flatMap_cons, List.flatMap_nil, List.filter_cons,
      List.filter_nil, List.map_cons, List.map_nil, List.append_nil, dedupFirst,
      dedupFirstAux]
    simp [valStore] at hme
    simp [hme, sqlOrderBy, insertLe]
    rw [hv]
    simp [pyFloatOrNone, hv0]
  · simp only [get_recent_additions, valStore]
    simp [leftJoin, sqlOrderBy, insertLe]
    rcases hcond with h | h | h <;> subst h
    · have hlat := latestObs_two ps "CT-SNES-1" "complete" r1 r2 hfe ht
      simp [buildRecentRow, subqueryLatestPrice, priceAt, hlat, hv, pyFloatOrNone, hv0]
    · have hlat := latestObs_two ps "CT-SNES-1" "loose" r1 r2 hfe ht
      simp [buildRecentRow, subqueryLatestPrice, priceAt, hlat, hv, pyFloatOrNone, hv0]
    · have hlat := latestObs_two ps "CT-SNES-1" "new" r1 r2 hfe ht
      simp [buildRecentRow, subqueryLatestPrice, priceAt, hlat, hv, pyFloatOrNone, hv0]

def obs1 : PriceRow := ⟨"CT-SNES-1", 1, some 300, "complete"⟩

def obs2 : PriceRow := ⟨"CT-SNES-1", 2, some 350, "complete"⟩

/-- Witness for `latest_observation_wins` at a concrete two-observation
history. -/
theorem latest_observation_wins_witness :
    (([obs1, obs2].filter (fun r => r.pricecharting_id = "CT-SNES-1" ∧
        r.condition = "complete") = [obs1, obs2]) ∧
     ([obs1, obs2].filter (fun r => r.pricecharting_id = "CT-SNES-1" ∧
        lowerEq "complete" r.condition) = [obs1, obs2]) ∧
     obs1.retrieve_time < obs2.retrieve_time ∧
     obs2.price = some 350 ∧ (350 : ℚ) ≠ 0 ∧
     ("complete" = "complete" ∨ "complete" = "loose" ∨ "complete" = "new")) ∧
    ((∀ (qs : List PriceRow) (c cc : String) (s1 s2 : PriceRow),
        qs.filter (fun r => r.pricecharting_id = c ∧ r.condition = cc) = [s1, s2] →
        s1.retrieve_time < s2.retrieve_time → latestObs qs c cc = some s2) ∧
     total_market (valStore "complete" [obs1, obs2]) = 350 ∧
     top_valuable (valStore "complete" [obs1, obs2]) =
       [⟨"Chrono Trigger", "SNES", "complete", some 275, 350⟩] ∧
     (∃ res, search_games (valStore "complete" [obs1, obs2]) "chrono" = [res] ∧
       priceAt res.current_prices "complete" = some 350) ∧
     (∃ drow, get_console_distribution (valStore "complete" [obs1, obs2]) = [drow] ∧
       drow.most_expensive_price = some 350) ∧
     (∃ rrow, get_recent_additions (valStore "complete" [obs1, obs2]) 10 = [rrow] ∧
       priceAt rrow.current_prices "complete" = some 350)) :=
  ⟨⟨by decide, by decide, by decide, rfl, by decide, Or.inl rfl⟩,
   latest_observation_wins [obs1, obs2] obs1 obs2 350 "complete"
     (by decide) (by decide) (by decide) rfl (by decide) (Or.inl rfl)⟩

/-- Store with one owned loose game whose price moved from 0 to 5 inside
the window. -/
def db7 : DB :=
  { physical_games := [⟨1, "Earthbound", "SNES"⟩]
    purchased_games := [⟨1, 1, "2024-01-15", "eBay", some 100, "loose"⟩]
    wanted_games := []
    pricecharting_games := [⟨1, some "P", "Earthbound", "SNES"⟩]
    links := [⟨1, 1, 1⟩]
    prices := [⟨"P", 1, some 0, "loose"⟩, ⟨"P", 2, some 5, "loose"⟩] }

def e7 : ChangeRow :=
  ⟨"Earthbound", "SNES", "loose", some 0, some 5, some (5 - 0), none⟩

/-- C7, counterexample: the claim says pairs whose old price is 0 are
excluded from the movers report, but the query's only filter is
`op.price != lp.price`, so the 0-to-5 pair is reported - with a NULL
percent (SQLite division by zero), not excluded. -/
theorem biggest_changes_zero_old_cex :
    biggest_changes db7 0 = [e7] ∧ e7.old_price = some 0 ∧
    e7.percent_change = none :=
  ⟨rfl, rfl, rfl⟩

/-- C7, amended: every reported mover has two non-null differing prices;
its percent delta equals (new - old) / old x 100 rounded to 2 decimals
when the old price is nonzero, and is NULL (not excluded) when the old
price is 0. -/
theorem biggest_changes_percent (db : DB) (winStart : Nat) (e : ChangeRow)
    (he : e ∈ biggest_changes db winStart) :
    ∃ o n, e.old_price = some o ∧ e.new_price = some n ∧ o ≠ n ∧
      e.price_change = some (n - o) ∧
      e.percent_change = if o = 0 then none
        else some (sqliteRound ((n - o) / o * 100) 2) := by
  simp only [biggest_changes] at he
  have he2 := List.mem_of_mem_take he
  rw [mem_sqlOrderBy] at he2
  simp only [List.mem_flatMap, List.mem_filter, List.mem_filterMap] at he2
  obtain ⟨pg, hpg, p, hp, j, hj, z, hz, lp, hlp, he3⟩ := he2
  by_cases hg : some lp.pricecharting_id = z.pricecharting_id ∧
      lowerEq pg.condition lp.condition
  · rw [if_pos hg] at he3
    rw [List.mem_filterMap] at he3
    obtain ⟨op, hop, he4⟩ := he3
    by_cases hg2 : some op.pricecharting_id = z.pricecharting_id ∧
        lowerEq pg.condition op.condition ∧ sqlNeq op.price lp.price
    · rw [if_pos hg2] at he4
      have heq : e = mkChangeRow p pg op lp := (Option.some.injEq _ _ ▸ he4).symm
      obtain ⟨-, -, hneq⟩ := hg2
      unfold sqlNeq at hneq
      cases hopp : op.price with
      | none => rw [hopp] at hneq; cases hneq
      | some o =>
        cases hlpp : lp.price with
        | none => rw [hopp, hlpp] at hneq; cases hneq
        | some n =>
          rw [hopp, hlpp] at hneq
          refine ⟨o, n, ?_, ?_, by simpa using hneq, ?_, ?_⟩
          · rw [heq]; simp [mkChangeRow, hopp]
          · rw [heq]; simp [mkChangeRow, hlpp]
          · rw [heq]; simp [mkChangeRow, hopp, hlpp]
          · rw [heq]
            simp only [mkChangeRow, hopp, hlpp]
            by_cases ho : o = 0
            · simp [sqlDiv, ho]
            · simp [sqlDiv, ho]
    · rw [if_neg hg2] at he4
      cases he4
  · rw [if_neg hg] at he3
    cases he3

/-- Witness for `biggest_changes_percent` at the concrete mover store. -/
theorem biggest_changes_percent_witness :
    (e7 ∈ biggest_changes db7 0) ∧
    (∃ o n, e7.old_price = some o ∧ e7.new_price = some n ∧ o ≠ n ∧
      e7.price_change = some (n - o) ∧
      e7.percent_change = if o = 0 then none
        else some (sqliteRound ((n - o) / o * 100) 2)) :=
  ⟨by rw [show biggest_changes db7 0 = [e7] from rfl]; exact List.mem_singleton.mpr rfl,
   biggest_changes_percent db7 0 e7
     (by rw [show biggest_changes db7 0 = [e7] from rfl]; exact List.mem_singleton.mpr rfl)⟩

/-- Network oracle that fails for one game id and succeeds for others. -/
def cexFetch (g : String) : Except String Snapshot :=
  if g = "bad-game" then .error "HTTP request failed"
  else .ok ⟨g, 7, ⟨some 10, none, none⟩⟩

/-- C8: with one failing fetch, the batch run reports an empty failure
list (the failed item never reaches it), counts the failed item as
processed, and inserts no rows for it — the failure is silently dropped,
contradicting the claim and the spec's no-silent-failure policy. -/
theorem retrieve_prices_drops_failure_cex :
    cexFetch "bad-game" = .error "HTTP request failed" ∧
    retrieve_prices_loop ["bad-game", "good-game"] cexFetch =
      ⟨2, [], [⟨"good-game", 7, some 10, "complete"⟩, ⟨"good-game", 7, none, "new"⟩,
               ⟨"good-game", 7, none, "loose"⟩]⟩ ∧
    (retrieve_prices_loop ["bad-game", "good-game"] cexFetch).all_failed = [] := by
  refine ⟨rfl, by decide, by decide⟩

end Collecting
